import Mathlib

/-!
# Verification of the real-estate management backend

Shallow embedding of `src/src/icp_rust_boilerplate_backend/src/lib.rs`.

The canister state consists of a `u64` id counter (`ID_COUNTER`) and three
`StableBTreeMap<u64, _>` tables (`PROPERTIES_STORAGE`, `LEASES_STORAGE`,
`MAINTENANCE_STORAGE`).  We model each table as an association list sorted
strictly by key, which is the observable behaviour of a BTree map
(`get`, `insert` with overwrite, `remove`, iteration in ascending key order).
The host clock `ic_cdk::api::time()` is modelled by an explicit `now`
argument to the create operations.  `u64` counters and timestamps are
modelled by `Nat`; `f64` fields (`valuation`, `rent`) are never inspected or
computed with by the source — only stored and copied — so they are modelled
by their 64-bit patterns as natural numbers.
-/

namespace RealEstate

/-- `f64` fields of the source are opaque to all of its logic (stored and
returned, never compared or computed with); we model them by the 64-bit
pattern of the float, a natural number. -/
abbrev F64 := Nat

/-- `struct Property` of the source. -/
structure Property where
  id : Nat
  address : String
  owner : String
  valuation : F64
  status : String
  created_at : Nat
deriving Repr, DecidableEq

/-- `Property::new`; `created_at` comes from the host clock, passed as `now`. -/
def Property.new (id : Nat) (address : String) (owner : String)
    (valuation : F64) (status : String) (now : Nat) : Property :=
  { id := id, address := address, owner := owner, valuation := valuation,
    status := status, created_at := now }

/-- `struct LeaseAgreement` of the source. -/
structure LeaseAgreement where
  id : Nat
  property_id : Nat
  tenant : String
  rent : F64
  start_date : Nat
  end_date : Nat
  created_at : Nat
  digital_signature : String
deriving Repr, DecidableEq

/-- `LeaseAgreement::new`. -/
def LeaseAgreement.new (id : Nat) (property_id : Nat) (tenant : String)
    (rent : F64) (start_date : Nat) (end_date : Nat)
    (digital_signature : String) (now : Nat) : LeaseAgreement :=
  { id := id, property_id := property_id, tenant := tenant, rent := rent,
    start_date := start_date, end_date := end_date, created_at := now,
    digital_signature := digital_signature }

/-- `struct MaintenanceRequest` of the source. -/
structure MaintenanceRequest where
  id : Nat
  property_id : Nat
  description : String
  status : String
  created_at : Nat
  priority : String
deriving Repr, DecidableEq

/-- `MaintenanceRequest::new`. -/
def MaintenanceRequest.new (id : Nat) (property_id : Nat) (description : String)
    (status : String) (priority : String) (now : Nat) : MaintenanceRequest :=
  { id := id, property_id := property_id, description := description,
    status := status, created_at := now, priority := priority }

/-- `struct PropertyPayload`. -/
structure PropertyPayload where
  address : String
  owner : String
  valuation : F64
  status : String
deriving Repr, DecidableEq

/-- `struct LeaseAgreementPayload`. -/
structure LeaseAgreementPayload where
  property_id : Nat
  tenant : String
  rent : F64
  start_date : Nat
  end_date : Nat
  digital_signature : String
deriving Repr, DecidableEq

/-- `struct MaintenanceRequestPayload`. -/
structure MaintenanceRequestPayload where
  property_id : Nat
  description : String
  status : String
  priority : String
deriving Repr, DecidableEq

/-- `enum Error` of the source. -/
inductive Error where
  | NotFound (msg : String)
  | ValidationError (msg : String)
  | Unauthorized (msg : String)
deriving Repr, DecidableEq

/-- `StableBTreeMap::get`. -/
def tableGet {α : Type} (k : Nat) : List (Nat × α) → Option α
  | [] => none
  | (k₁, v₁) :: t => if k = k₁ then some v₁ else tableGet k t

/-- `StableBTreeMap::insert`: overwrites an existing key, keeps keys sorted. -/
def tableInsert {α : Type} (k : Nat) (v : α) : List (Nat × α) → List (Nat × α)
  | [] => [(k, v)]
  | (k₁, v₁) :: t =>
    if k < k₁ then (k, v) :: (k₁, v₁) :: t
    else if k = k₁ then (k, v) :: t
    else (k₁, v₁) :: tableInsert k v t

/-- `StableBTreeMap::remove`: returns the removed value (if any) and the
remaining table. -/
def tableRemove {α : Type} (k : Nat) : List (Nat × α) → Option α × List (Nat × α)
  | [] => (none, [])
  | (k₁, v₁) :: t =>
    if k = k₁ then (some v₁, t)
    else
      let r := tableRemove k t
      (r.1, (k₁, v₁) :: r.2)

/-- `StableBTreeMap::contains_key`. -/
def containsKey {α : Type} (k : Nat) (l : List (Nat × α)) : Bool :=
  (tableGet k l).isSome

/-- The whole canister state: `ID_COUNTER` plus the three tables. -/
structure State where
  counter : Nat
  properties : List (Nat × Property)
  leases : List (Nat × LeaseAgreement)
  maintenance : List (Nat × MaintenanceRequest)
deriving Repr, DecidableEq

/-- Initial state: counter cell initialised to `0`, all tables empty. -/
def initState : State := { counter := 0, properties := [], leases := [], maintenance := [] }

/-- The `ID_COUNTER.with(...)` block shared by all three create functions:
read the current value, store `current_value + 1`, yield the old value. -/
def allocId (s : State) : Nat × State :=
  (s.counter, { s with counter := s.counter + 1 })

/-- `fn create_property`. -/
def create_property (now : Nat) (payload : PropertyPayload) (s : State) :
    Except Error Property × State :=
  if payload.address.isEmpty || payload.owner.isEmpty then
    (Except.error (Error.ValidationError "Address and owner are required"), s)
  else
    let a := allocId s
    let property := Property.new a.1 payload.address payload.owner
      payload.valuation payload.status now
    (Except.ok property,
      { a.2 with properties := tableInsert property.id property a.2.properties })

/-- `fn update_property`. -/
def update_property (id : Nat) (payload : PropertyPayload) (s : State) :
    Except Error Property × State :=
  match tableGet id s.properties with
  | some property₀ =>
    let property := { property₀ with
      address := payload.address, owner := payload.owner,
      valuation := payload.valuation, status := payload.status }
    (Except.ok property, { s with properties := tableInsert id property s.properties })
  | none => (Except.error (Error.NotFound "Property not found"), s)

/-- `fn delete_property`. -/
def delete_property (id : Nat) (s : State) : Except Error Unit × State :=
  let r := tableRemove id s.properties
  if r.1.isSome then (Except.ok (), { s with properties := r.2 })
  else (Except.error (Error.NotFound "Property not found"), s)

/-- `fn get_all_properties` (a query: it only reads the state). -/
def get_all_properties (s : State) : Except Error (List Property) :=
  let properties := s.properties.map Prod.snd
  if properties.isEmpty then Except.error (Error.NotFound "No properties found.")
  else Except.ok properties

/-- `fn create_lease_agreement`.  Note the order of the three checks in the
source: empty tenant, then property existence, then dates. -/
def create_lease_agreement (now : Nat) (payload : LeaseAgreementPayload) (s : State) :
    Except Error LeaseAgreement × State :=
  if payload.tenant.isEmpty then
    (Except.error (Error.ValidationError "Tenant name is required"), s)
  else if !containsKey payload.property_id s.properties then
    (Except.error (Error.NotFound "Property not found"), s)
  else if payload.start_date ≥ payload.end_date then
    (Except.error (Error.ValidationError "Invalid dates. Start date must be before end date"), s)
  else
    let a := allocId s
    let lease := LeaseAgreement.new a.1 payload.property_id payload.tenant
      payload.rent payload.start_date payload.end_date payload.digital_signature now
    (Except.ok lease, { a.2 with leases := tableInsert lease.id lease a.2.leases })

/-- `fn update_lease_agreement`. -/
def update_lease_agreement (id : Nat) (payload : LeaseAgreementPayload) (s : State) :
    Except Error LeaseAgreement × State :=
  match tableGet id s.leases with
  | some lease₀ =>
    let lease := { lease₀ with
      property_id := payload.property_id, tenant := payload.tenant,
      rent := payload.rent, start_date := payload.start_date,
      end_date := payload.end_date, digital_signature := payload.digital_signature }
    (Except.ok lease, { s with leases := tableInsert id lease s.leases })
  | none => (Except.error (Error.NotFound "Lease agreement not found"), s)

/-- `fn delete_lease_agreement`. -/
def delete_lease_agreement (id : Nat) (s : State) : Except Error Unit × State :=
  let r := tableRemove id s.leases
  if r.1.isSome then (Except.ok (), { s with leases := r.2 })
  else (Except.error (Error.NotFound "Lease agreement not found"), s)

/-- `fn get_all_lease_agreements` (query). -/
def get_all_lease_agreements (s : State) : Except Error (List LeaseAgreement) :=
  let leases := s.leases.map Prod.snd
  if leases.isEmpty then Except.error (Error.NotFound "No lease agreements found.")
  else Except.ok leases

/-- `fn create_maintenance_request`.  Check order in the source: status
validity first, then property existence.  The source message quotes the two
admissible statuses. -/
def create_maintenance_request (now : Nat) (payload : MaintenanceRequestPayload) (s : State) :
    Except Error MaintenanceRequest × State :=
  if payload.status ≠ "pending" ∧ payload.status ≠ "completed" then
    (Except.error (Error.ValidationError "Invalid status. Status must be either pending or completed"), s)
  else if !containsKey payload.property_id s.properties then
    (Except.error (Error.NotFound "Property not found"), s)
  else
    let a := allocId s
    let request := MaintenanceRequest.new a.1 payload.property_id
      payload.description payload.status payload.priority now
    (Except.ok request,
      { a.2 with maintenance := tableInsert request.id request a.2.maintenance })

/-- `fn update_maintenance_request`. -/
def update_maintenance_request (id : Nat) (payload : MaintenanceRequestPayload) (s : State) :
    Except Error MaintenanceRequest × State :=
  match tableGet id s.maintenance with
  | some request₀ =>
    let request := { request₀ with
      property_id := payload.property_id, description := payload.description,
      status := payload.status, priority := payload.priority }
    (Except.ok request, { s with maintenance := tableInsert id request s.maintenance })
  | none => (Except.error (Error.NotFound "Maintenance request not found"), s)

/-- `fn delete_maintenance_request`. -/
def delete_maintenance_request (id : Nat) (s : State) : Except Error Unit × State :=
  let r := tableRemove id s.maintenance
  if r.1.isSome then (Except.ok (), { s with maintenance := r.2 })
  else (Except.error (Error.NotFound "Maintenance request not found"), s)

/-- `fn get_all_maintenance_requests` (query). -/
def get_all_maintenance_requests (s : State) : Except Error (List MaintenanceRequest) :=
  let requests := s.maintenance.map Prod.snd
  if requests.isEmpty then Except.error (Error.NotFound "No maintenance requests found.")
  else Except.ok requests

/-- One request of the public interface, with its payload. -/
inductive Op where
  | createProperty (payload : PropertyPayload)
  | updateProperty (id : Nat) (payload : PropertyPayload)
  | deleteProperty (id : Nat)
  | getAllProperties
  | createLeaseAgreement (payload : LeaseAgreementPayload)
  | updateLeaseAgreement (id : Nat) (payload : LeaseAgreementPayload)
  | deleteLeaseAgreement (id : Nat)
  | getAllLeaseAgreements
  | createMaintenanceRequest (payload : MaintenanceRequestPayload)
  | updateMaintenanceRequest (id : Nat) (payload : MaintenanceRequestPayload)
  | deleteMaintenanceRequest (id : Nat)
  | getAllMaintenanceRequests
deriving Repr

/-- Successful results of the twelve entry points, merged into one type so a
single step function can dispatch every operation. -/
inductive Output where
  | prop (p : Property)
  | lease (l : LeaseAgreement)
  | maint (m : MaintenanceRequest)
  | propList (ps : List Property)
  | leaseList (ls : List LeaseAgreement)
  | maintList (ms : List MaintenanceRequest)
  | unit
deriving Repr, DecidableEq

/-- Dispatch of one inbound request to the matching entry point.  Queries do
not touch the state, so they pass it through unchanged. -/
def step (now : Nat) (op : Op) (s : State) : Except Error Output × State :=
  match op with
  | .createProperty p => let r := create_property now p s; (r.1.map Output.prop, r.2)
  | .updateProperty id p => let r := update_property id p s; (r.1.map Output.prop, r.2)
  | .deleteProperty id => let r := delete_property id s; (r.1.map fun _ => Output.unit, r.2)
  | .getAllProperties => ((get_all_properties s).map Output.propList, s)
  | .createLeaseAgreement p => let r := create_lease_agreement now p s; (r.1.map Output.lease, r.2)
  | .updateLeaseAgreement id p => let r := update_lease_agreement id p s; (r.1.map Output.lease, r.2)
  | .deleteLeaseAgreement id => let r := delete_lease_agreement id s; (r.1.map fun _ => Output.unit, r.2)
  | .getAllLeaseAgreements => ((get_all_lease_agreements s).map Output.leaseList, s)
  | .createMaintenanceRequest p => let r := create_maintenance_request now p s; (r.1.map Output.maint, r.2)
  | .updateMaintenanceRequest id p => let r := update_maintenance_request id p s; (r.1.map Output.maint, r.2)
  | .deleteMaintenanceRequest id => let r := delete_maintenance_request id s; (r.1.map fun _ => Output.unit, r.2)
  | .getAllMaintenanceRequests => ((get_all_maintenance_requests s).map Output.maintList, s)

/-- State invariant established by `initState` and preserved by every
operation: each table is sorted strictly by key, every key is below the
counter, and each stored record's `id` field equals its key. -/
structure Inv (s : State) : Prop where
  sortedP : s.properties.Pairwise (fun a b => a.1 < b.1)
  sortedL : s.leases.Pairwise (fun a b => a.1 < b.1)
  sortedM : s.maintenance.Pairwise (fun a b => a.1 < b.1)
  belowP : ∀ kv ∈ s.properties, kv.1 < s.counter
  belowL : ∀ kv ∈ s.leases, kv.1 < s.counter
  belowM : ∀ kv ∈ s.maintenance, kv.1 < s.counter
  idP : ∀ kv ∈ s.properties, (kv.2 : Property).id = kv.1
  idL : ∀ kv ∈ s.leases, (kv.2 : LeaseAgreement).id = kv.1
  idM : ∀ kv ∈ s.maintenance, (kv.2 : MaintenanceRequest).id = kv.1

/-!
## Record serialization

The source implements `Storable::to_bytes` / `from_bytes` for the three
record types by delegating to the candid `Encode!` / `Decode!` macros, whose
wire format lives in the external `candid` crate (the spec lists the
serialization wire format among the external collaborators).  The spec only
requires a bounded byte representation with round-trip fidelity, so the
encoder below is modelled, not transcribed: every `u64`-like field (and every
`f64` bit pattern) becomes 8 little-endian bytes, every string becomes an
8-byte length followed by 8 bytes per character, fields are concatenated in
declaration order, and decoding fails (`none`) on any malformed or
over-long input, mirroring the fallibility of `Decode!`. -/

/-- Little-endian base-256 digits, `k` bytes. -/
def encNatLE : Nat → Nat → List Nat
  | 0, _ => []
  | k + 1, n => n % 256 :: encNatLE k (n / 256)

/-- Read back `k` little-endian bytes; returns the value and the rest. -/
def decNatLE : Nat → List Nat → Option (Nat × List Nat)
  | 0, l => some (0, l)
  | _ + 1, [] => none
  | k + 1, b :: l =>
    match decNatLE k l with
    | some (m, r) => some (b + 256 * m, r)
    | none => none

/-- A `u64` (or `f64` bit pattern): 8 little-endian bytes. -/
def encNat64 (n : Nat) : List Nat := encNatLE 8 n

/-- Read back a `u64`. -/
def decNat64 (l : List Nat) : Option (Nat × List Nat) := decNatLE 8 l

/-- One character, by its code point. -/
def encChar (c : Char) : List Nat := encNat64 c.toNat

/-- Read back one character. -/
def decChar (l : List Nat) : Option (Char × List Nat) :=
  match decNat64 l with
  | some (n, r) => some (Char.ofNat n, r)
  | none => none

/-- A string: its length, then its characters. -/
def encStr (s : String) : List Nat :=
  encNat64 s.length ++ (s.data.map encChar).flatten

/-- Read back `k` characters. -/
def decChars : Nat → List Nat → Option (List Char × List Nat)
  | 0, l => some ([], l)
  | k + 1, l =>
    match decChar l with
    | some (c, r) =>
      match decChars k r with
      | some (cs, r₁) => some (c :: cs, r₁)
      | none => none
    | none => none

/-- Read back a string. -/
def decStr (l : List Nat) : Option (String × List Nat) :=
  match decNat64 l with
  | some (n, r) =>
    match decChars n r with
    | some (cs, r₁) => some (String.mk cs, r₁)
    | none => none
  | none => none

/-- `impl Storable for Property`, `to_bytes`. -/
def Property.toBytes (p : Property) : List Nat :=
  encNat64 p.id ++ encStr p.address ++ encStr p.owner ++
  encNat64 p.valuation ++ encStr p.status ++ encNat64 p.created_at

/-- `impl Storable for Property`, `from_bytes`; `none` models a `Decode!`
failure (treated as a fatal fault by the platform). -/
def Property.fromBytes (l : List Nat) : Option Property := do
  let (id, l) ← decNat64 l
  let (address, l) ← decStr l
  let (owner, l) ← decStr l
  let (valuation, l) ← decNat64 l
  let (status, l) ← decStr l
  let (created_at, l) ← decNat64 l
  if l = [] then
    some { id := id, address := address, owner := owner,
           valuation := valuation, status := status, created_at := created_at }
  else none

/-- `impl Storable for LeaseAgreement`, `to_bytes`. -/
def LeaseAgreement.toBytes (la : LeaseAgreement) : List Nat :=
  encNat64 la.id ++ encNat64 la.property_id ++ encStr la.tenant ++
  encNat64 la.rent ++ encNat64 la.start_date ++ encNat64 la.end_date ++
  encNat64 la.created_at ++ encStr la.digital_signature

/-- `impl Storable for LeaseAgreement`, `from_bytes`. -/
def LeaseAgreement.fromBytes (l : List Nat) : Option LeaseAgreement := do
  let (id, l) ← decNat64 l
  let (property_id, l) ← decNat64 l
  let (tenant, l) ← decStr l
  let (rent, l) ← decNat64 l
  let (start_date, l) ← decNat64 l
  let (end_date, l) ← decNat64 l
  let (created_at, l) ← decNat64 l
  let (digital_signature, l) ← decStr l
  if l = [] then
    some { id := id, property_id := property_id, tenant := tenant, rent := rent,
           start_date := start_date, end_date := end_date,
           created_at := created_at, digital_signature := digital_signature }
  else none

/-- `impl Storable for MaintenanceRequest`, `to_bytes`. -/
def MaintenanceRequest.toBytes (m : MaintenanceRequest) : List Nat :=
  encNat64 m.id ++ encNat64 m.property_id ++ encStr m.description ++
  encStr m.status ++ encNat64 m.created_at ++ encStr m.priority

/-- `impl Storable for MaintenanceRequest`, `from_bytes`. -/
def MaintenanceRequest.fromBytes (l : List Nat) : Option MaintenanceRequest := do
  let (id, l) ← decNat64 l
  let (property_id, l) ← decNat64 l
  let (description, l) ← decStr l
  let (status, l) ← decStr l
  let (created_at, l) ← decNat64 l
  let (priority, l) ← decStr l
  if l = [] then
    some { id := id, property_id := property_id, description := description,
           status := status, created_at := created_at, priority := priority }
  else none

/-- A `Property` is representable when each `u64`/`f64` field fits in 64 bits
and each string length does (automatic for any record coming from Rust). -/
def Property.Valid (p : Property) : Prop :=
  p.id < 2 ^ 64 ∧ p.valuation < 2 ^ 64 ∧ p.created_at < 2 ^ 64 ∧
  p.address.length < 2 ^ 64 ∧ p.owner.length < 2 ^ 64 ∧ p.status.length < 2 ^ 64

/-- Validity of a `LeaseAgreement`, as for `Property.Valid`. -/
def LeaseAgreement.Valid (la : LeaseAgreement) : Prop :=
  la.id < 2 ^ 64 ∧ la.property_id < 2 ^ 64 ∧ la.rent < 2 ^ 64 ∧
  la.start_date < 2 ^ 64 ∧ la.end_date < 2 ^ 64 ∧ la.created_at < 2 ^ 64 ∧
  la.tenant.length < 2 ^ 64 ∧ la.digital_signature.length < 2 ^ 64

/-- Validity of a `MaintenanceRequest`, as for `Property.Valid`. -/
def MaintenanceRequest.Valid (m : MaintenanceRequest) : Prop :=
  m.id < 2 ^ 64 ∧ m.property_id < 2 ^ 64 ∧ m.created_at < 2 ^ 64 ∧
  m.description.length < 2 ^ 64 ∧ m.status.length < 2 ^ 64 ∧ m.priority.length < 2 ^ 64

/-- Whether a result is the `Unauthorized` error variant (the source declares
the variant but no entry point constructs it). -/
def isUnauthorizedResult {α : Type} : Except Error α → Bool
  | .error (.Unauthorized _) => true
  | _ => false

/-! ### Concrete sample data, used to evaluate the operations on explicit
inputs (mirroring the scenario of the source's tests). -/

/-- A stored property, as created by the source's `test_create_property`. -/
def sampleProperty : Property :=
  { id := 0, address := "123 Main St", owner := "Alice", valuation := 5,
    status := "available", created_at := 10 }

/-- A second stored property. -/
def sampleProperty2 : Property :=
  { id := 1, address := "45 Oak Ave", owner := "Bob", valuation := 6,
    status := "sold", created_at := 11 }

/-- A stored lease agreement referencing `sampleProperty`. -/
def sampleLease : LeaseAgreement :=
  { id := 2, property_id := 0, tenant := "Carol", rent := 3, start_date := 1,
    end_date := 9, created_at := 12, digital_signature := "sig" }

/-- A stored maintenance request referencing `sampleProperty`. -/
def sampleMaintenance : MaintenanceRequest :=
  { id := 3, property_id := 0, description := "leak", status := "pending",
    created_at := 13, priority := "high" }

/-- A reachable state holding the four sample records. -/
def sampleState : State :=
  { counter := 4,
    properties := [(0, sampleProperty), (1, sampleProperty2)],
    leases := [(2, sampleLease)],
    maintenance := [(3, sampleMaintenance)] }

/-! ## Association-table lemmas -/

theorem tableGet_insert_self {α : Type} (k : Nat) (v : α) (l : List (Nat × α)) :
    tableGet k (tableInsert k v l) = some v := by
  induction l with
  | nil => simp [tableInsert, tableGet]
  | cons hd t ih =>
    obtain ⟨k₁, v₁⟩ := hd
    by_cases h1 : k < k₁
    · simp [tableInsert, h1, tableGet]
    · by_cases h2 : k = k₁
      · simp [tableInsert, h1, h2, tableGet]
      · simp [tableInsert, h1, h2, tableGet, ih]

theorem tableGet_insert_ne {α : Type} {k k₁ : Nat} (v : α) (l : List (Nat × α))
    (h : k₁ ≠ k) : tableGet k₁ (tableInsert k v l) = tableGet k₁ l := by
  induction l with
  | nil => simp [tableInsert, tableGet, h]
  | cons hd t ih =>
    obtain ⟨k₂, v₂⟩ := hd
    by_cases h1 : k < k₂
    · simp [tableInsert, h1, tableGet, h]
    · by_cases h2 : k = k₂
      · subst h2; simp [tableInsert, h1, tableGet, h]
      · by_cases h3 : k₁ = k₂ <;> simp [tableInsert, h1, h2, tableGet, h3, ih]

theorem mem_tableInsert {α : Type} {x : Nat × α} {k : Nat} {v : α} {l : List (Nat × α)}
    (hx : x ∈ tableInsert k v l) : x = (k, v) ∨ x ∈ l := by
  induction l with
  | nil => simpa [tableInsert] using hx
  | cons hd t ih =>
    obtain ⟨k₁, v₁⟩ := hd
    by_cases h1 : k < k₁
    · simp only [tableInsert, if_pos h1, List.mem_cons] at hx ⊢; tauto
    · by_cases h2 : k = k₁
      · simp only [tableInsert, if_neg h1, if_pos h2, List.mem_cons] at hx ⊢; tauto
      · simp only [tableInsert, if_neg h1, if_neg h2, List.mem_cons] at hx ⊢
        rcases hx with rfl | hx
        · tauto
        · rcases ih hx with rfl | hx <;> tauto

theorem tableInsert_pairwise {α : Type} (k : Nat) (v : α) {l : List (Nat × α)}
    (h : l.Pairwise (fun a b => a.1 < b.1)) :
    (tableInsert k v l).Pairwise (fun a b => a.1 < b.1) := by
  induction l with
  | nil => simp [tableInsert]
  | cons hd t ih =>
    obtain ⟨k₁, v₁⟩ := hd
    rw [List.pairwise_cons] at h
    obtain ⟨h1, h2⟩ := h
    by_cases hk : k < k₁
    · simp only [tableInsert, if_pos hk]
      refine List.Pairwise.cons ?_ (List.Pairwise.cons h1 h2)
      intro b hb
      rcases List.mem_cons.mp hb with rfl | hb
      · exact hk
      · exact Nat.lt_trans hk (h1 b hb)
    · by_cases he : k = k₁
      · subst he
        simp only [tableInsert, if_neg hk, if_pos rfl]
        exact List.Pairwise.cons h1 h2
      · simp only [tableInsert, if_neg hk, if_neg he]
        refine List.Pairwise.cons ?_ (ih h2)
        intro b hb
        rcases mem_tableInsert hb with rfl | hb
        · show k₁ < k; omega
        · exact h1 b hb

theorem tableRemove_fst {α : Type} (k : Nat) (l : List (Nat × α)) :
    (tableRemove k l).1 = tableGet k l := by
  induction l with
  | nil => simp [tableRemove, tableGet]
  | cons hd t ih =>
    obtain ⟨k₁, v₁⟩ := hd
    by_cases h : k = k₁ <;> simp [tableRemove, tableGet, h, ih]

theorem mem_tableRemove {α : Type} {x : Nat × α} {k : Nat} {l : List (Nat × α)}
    (hx : x ∈ (tableRemove k l).2) : x ∈ l := by
  induction l with
  | nil => simp [tableRemove] at hx
  | cons hd t ih =>
    obtain ⟨k₁, v₁⟩ := hd
    by_cases h : k = k₁
    · simp only [tableRemove, if_pos h] at hx
      exact List.mem_cons_of_mem _ hx
    · simp only [tableRemove, if_neg h, List.mem_cons] at hx ⊢
      rcases hx with rfl | hx
      · tauto
      · exact Or.inr (ih hx)

theorem tableRemove_pairwise {α : Type} (k : Nat) {l : List (Nat × α)}
    (h : l.Pairwise (fun a b => a.1 < b.1)) :
    (tableRemove k l).2.Pairwise (fun a b => a.1 < b.1) := by
  induction l with
  | nil => simp [tableRemove]
  | cons hd t ih =>
    obtain ⟨k₁, v₁⟩ := hd
    rw [List.pairwise_cons] at h
    obtain ⟨h1, h2⟩ := h
    by_cases hk : k = k₁
    · simp only [tableRemove, if_pos hk]
      exact h2
    · simp only [tableRemove, if_neg hk]
      refine List.Pairwise.cons ?_ (ih h2)
      intro b hb
      exact h1 b (mem_tableRemove hb)

theorem tableGet_eq_none {α : Type} {k : Nat} {l : List (Nat × α)}
    (h : ∀ x ∈ l, x.1 ≠ k) : tableGet k l = none := by
  induction l with
  | nil => simp [tableGet]
  | cons hd t ih =>
    obtain ⟨k₁, v₁⟩ := hd
    have h1 : k₁ ≠ k := h (k₁, v₁) (by simp)
    simp only [tableGet, if_neg (Ne.symm h1)]
    exact ih fun x hx => h x (List.mem_cons_of_mem _ hx)

theorem tableGet_none_forall {α : Type} {k : Nat} {l : List (Nat × α)}
    (h : tableGet k l = none) : ∀ x ∈ l, x.1 ≠ k := by
  induction l with
  | nil => simp
  | cons hd t ih =>
    obtain ⟨k₁, v₁⟩ := hd
    by_cases hk : k = k₁
    · simp [tableGet, hk] at h
    · simp only [tableGet, if_neg hk] at h
      intro x hx
      rcases List.mem_cons.mp hx with rfl | hx
      · simpa using Ne.symm hk
      · exact ih h x hx

theorem tableGet_some_mem {α : Type} {k : Nat} {l : List (Nat × α)} {v : α}
    (h : tableGet k l = some v) : (k, v) ∈ l := by
  induction l with
  | nil => simp [tableGet] at h
  | cons hd t ih =>
    obtain ⟨k₁, v₁⟩ := hd
    by_cases hk : k = k₁
    · simp only [tableGet, if_pos hk] at h
      subst hk
      obtain rfl : v₁ = v := Option.some.inj h
      simp
    · simp only [tableGet, if_neg hk] at h
      exact List.mem_cons_of_mem _ (ih h)

theorem tableGet_remove_self {α : Type} {k : Nat} {l : List (Nat × α)}
    (h : l.Pairwise (fun a b => a.1 < b.1)) :
    tableGet k (tableRemove k l).2 = none := by
  induction l with
  | nil => simp [tableRemove, tableGet]
  | cons hd t ih =>
    obtain ⟨k₁, v₁⟩ := hd
    rw [List.pairwise_cons] at h
    obtain ⟨h1, h2⟩ := h
    by_cases hk : k = k₁
    · subst hk
      simp only [tableRemove, if_pos rfl]
      exact tableGet_eq_none fun x hx => by have := h1 x hx; omega
    · simp only [tableRemove, if_neg hk, tableGet, if_neg hk]
      exact ih h2

theorem tableGet_remove_ne {α : Type} {k k₁ : Nat} (l : List (Nat × α))
    (h : k₁ ≠ k) : tableGet k₁ (tableRemove k l).2 = tableGet k₁ l := by
  induction l with
  | nil => simp [tableRemove]
  | cons hd t ih =>
    obtain ⟨k₂, v₂⟩ := hd
    by_cases hk : k = k₂
    · subst hk
      simp [tableRemove, tableGet, h]
    · by_cases hk₁ : k₁ = k₂ <;> simp [tableRemove, hk, tableGet, hk₁, ih]

theorem pairwise_snd {α : Type} (f : α → Nat) {l : List (Nat × α)}
    (hid : ∀ kv ∈ l, f kv.2 = kv.1) (h : l.Pairwise (fun a b => a.1 < b.1)) :
    (l.map Prod.snd).Pairwise (fun a b => f a < f b) := by
  rw [List.pairwise_map]
  exact h.imp_of_mem fun ha hb hab => by
    rw [hid _ ha, hid _ hb]; exact hab

/-! ## Invariant preservation -/

theorem inv_initState : Inv initState := by
  constructor <;> simp [initState]

theorem inv_create_property (now : Nat) (p : PropertyPayload) (s : State)
    (h : Inv s) : Inv (create_property now p s).2 := by
  by_cases hv : (p.address.isEmpty || p.owner.isEmpty) = true
  · simpa [create_property, hv] using h
  · simp only [create_property, hv, Bool.false_eq_true, if_false, allocId, Property.new]
    constructor
    · exact tableInsert_pairwise _ _ h.sortedP
    · exact h.sortedL
    · exact h.sortedM
    · intro kv hkv
      rcases mem_tableInsert hkv with rfl | hkv
      · simp
      · have := h.belowP kv hkv; simp; omega
    · intro kv hkv; have := h.belowL kv hkv; simp; omega
    · intro kv hkv; have := h.belowM kv hkv; simp; omega
    · intro kv hkv
      rcases mem_tableInsert hkv with rfl | hkv
      · rfl
      · exact h.idP kv hkv
    · exact h.idL
    · exact h.idM

theorem inv_update_property (id : Nat) (p : PropertyPayload) (s : State)
    (h : Inv s) : Inv (update_property id p s).2 := by
  unfold update_property
  split
  case h_1 property₀ heq =>
    have hmem : (id, property₀) ∈ s.properties := tableGet_some_mem heq
    constructor
    · exact tableInsert_pairwise _ _ h.sortedP
    · exact h.sortedL
    · exact h.sortedM
    · intro kv hkv
      rcases mem_tableInsert hkv with rfl | hkv
      · simpa using h.belowP _ hmem
      · exact h.belowP kv hkv
    · exact h.belowL
    · exact h.belowM
    · intro kv hkv
      rcases mem_tableInsert hkv with rfl | hkv
      · simpa using h.idP _ hmem
      · exact h.idP kv hkv
    · exact h.idL
    · exact h.idM
  case h_2 heq => exact h

theorem inv_delete_property (id : Nat) (s : State) (h : Inv s) :
    Inv (delete_property id s).2 := by
  unfold delete_property
  dsimp only
  split
  · constructor
    · exact tableRemove_pairwise _ h.sortedP
    · exact h.sortedL
    · exact h.sortedM
    · intro kv hkv; exact h.belowP kv (mem_tableRemove hkv)
    · exact h.belowL
    · exact h.belowM
    · intro kv hkv; exact h.idP kv (mem_tableRemove hkv)
    · exact h.idL
    · exact h.idM
  · exact h

theorem inv_create_lease (now : Nat) (p : LeaseAgreementPayload) (s : State)
    (h : Inv s) : Inv (create_lease_agreement now p s).2 := by
  by_cases hv : p.tenant.isEmpty = true
  · simpa [create_lease_agreement, hv] using h
  · by_cases hc : containsKey p.property_id s.properties = true
    · by_cases hd : p.start_date ≥ p.end_date
      · simpa [create_lease_agreement, hv, hc, hd] using h
      · simp only [create_lease_agreement, hv, Bool.false_eq_true, if_false, hc,
          Bool.not_true, hd, allocId, LeaseAgreement.new]
        constructor
        · exact h.sortedP
        · exact tableInsert_pairwise _ _ h.sortedL
        · exact h.sortedM
        · intro kv hkv; have := h.belowP kv hkv; simp; omega
        · intro kv hkv
          rcases mem_tableInsert hkv with rfl | hkv
          · simp
          · have := h.belowL kv hkv; simp; omega
        · intro kv hkv; have := h.belowM kv hkv; simp; omega
        · exact h.idP
        · intro kv hkv
          rcases mem_tableInsert hkv with rfl | hkv
          · rfl
          · exact h.idL kv hkv
        · exact h.idM
    · simp only [create_lease_agreement, hv, Bool.false_eq_true, if_false] at *
      simpa [hc] using h

theorem inv_update_lease (id : Nat) (p : LeaseAgreementPayload) (s : State)
    (h : Inv s) : Inv (update_lease_agreement id p s).2 := by
  unfold update_lease_agreement
  split
  case h_1 lease₀ heq =>
    have hmem : (id, lease₀) ∈ s.leases := tableGet_some_mem heq
    constructor
    · exact h.sortedP
    · exact tableInsert_pairwise _ _ h.sortedL
    · exact h.sortedM
    · exact h.belowP
    · intro kv hkv
      rcases mem_tableInsert hkv with rfl | hkv
      · simpa using h.belowL _ hmem
      · exact h.belowL kv hkv
    · exact h.belowM
    · exact h.idP
    · intro kv hkv
      rcases mem_tableInsert hkv with rfl | hkv
      · simpa using h.idL _ hmem
      · exact h.idL kv hkv
    · exact h.idM
  case h_2 heq => exact h

theorem inv_delete_lease (id : Nat) (s : State) (h : Inv s) :
    Inv (delete_lease_agreement id s).2 := by
  unfold delete_lease_agreement
  dsimp only
  split
  · constructor
    · exact h.sortedP
    · exact tableRemove_pairwise _ h.sortedL
    · exact h.sortedM
    · exact h.belowP
    · intro kv hkv; exact h.belowL kv (mem_tableRemove hkv)
    · exact h.belowM
    · exact h.idP
    · intro kv hkv; exact h.idL kv (mem_tableRemove hkv)
    · exact h.idM
  · exact h

theorem inv_create_maintenance (now : Nat) (p : MaintenanceRequestPayload) (s : State)
    (h : Inv s) : Inv (create_maintenance_request now p s).2 := by
  by_cases hv : p.status ≠ "pending" ∧ p.status ≠ "completed"
  · simpa [create_maintenance_request, hv] using h
  · by_cases hc : containsKey p.property_id s.properties = true
    · simp only [create_maintenance_request, hv, if_false, hc, Bool.not_true,
        Bool.false_eq_true, allocId, MaintenanceRequest.new]
      constructor
      · exact h.sortedP
      · exact h.sortedL
      · exact tableInsert_pairwise _ _ h.sortedM
      · intro kv hkv; have := h.belowP kv hkv; simp; omega
      · intro kv hkv; have := h.belowL kv hkv; simp; omega
      · intro kv hkv
        rcases mem_tableInsert hkv with rfl | hkv
        · simp
        · have := h.belowM kv hkv; simp; omega
      · exact h.idP
      · exact h.idL
      · intro kv hkv
        rcases mem_tableInsert hkv with rfl | hkv
        · rfl
        · exact h.idM kv hkv
    · simpa [create_maintenance_request, hv, hc] using h

theorem inv_update_maintenance (id : Nat) (p : MaintenanceRequestPayload) (s : State)
    (h : Inv s) : Inv (update_maintenance_request id p s).2 := by
  unfold update_maintenance_request
  split
  case h_1 request₀ heq =>
    have hmem : (id, request₀) ∈ s.maintenance := tableGet_some_mem heq
    constructor
    · exact h.sortedP
    · exact h.sortedL
    · exact tableInsert_pairwise _ _ h.sortedM
    · exact h.belowP
    · exact h.belowL
    · intro kv hkv
      rcases mem_tableInsert hkv with rfl | hkv
      · simpa using h.belowM _ hmem
      · exact h.belowM kv hkv
    · exact h.idP
    · exact h.idL
    · intro kv hkv
      rcases mem_tableInsert hkv with rfl | hkv
      · simpa using h.idM _ hmem
      · exact h.idM kv hkv
  case h_2 heq => exact h

theorem inv_delete_maintenance (id : Nat) (s : State) (h : Inv s) :
    Inv (delete_maintenance_request id s).2 := by
  unfold delete_maintenance_request
  dsimp only
  split
  · constructor
    · exact h.sortedP
    · exact h.sortedL
    · exact tableRemove_pairwise _ h.sortedM
    · exact h.belowP
    · exact h.belowL
    · intro kv hkv; exact h.belowM kv (mem_tableRemove hkv)
    · exact h.idP
    · exact h.idL
    · intro kv hkv; exact h.idM kv (mem_tableRemove hkv)
  · exact h

theorem inv_step (now : Nat) (op : Op) (s : State) (h : Inv s) :
    Inv (step now op s).2 := by
  cases op with
  | createProperty p => exact inv_create_property now p s h
  | updateProperty id p => exact inv_update_property id p s h
  | deleteProperty id => exact inv_delete_property id s h
  | getAllProperties => exact h
  | createLeaseAgreement p => exact inv_create_lease now p s h
  | updateLeaseAgreement id p => exact inv_update_lease id p s h
  | deleteLeaseAgreement id => exact inv_delete_lease id s h
  | getAllLeaseAgreements => exact h
  | createMaintenanceRequest p => exact inv_create_maintenance now p s h
  | updateMaintenanceRequest id p => exact inv_update_maintenance id p s h
  | deleteMaintenanceRequest id => exact inv_delete_maintenance id s h
  | getAllMaintenanceRequests => exact h

/-! ## Serialization round-trip lemmas -/

theorem decNatLE_enc (k : Nat) (r : List Nat) :
    ∀ n, n < 256 ^ k → decNatLE k (encNatLE k n ++ r) = some (n, r) := by
  induction k with
  | zero =>
    intro n hn
    have : n = 0 := by simpa using hn
    subst this
    simp [encNatLE, decNatLE]
  | succ k ih =>
    intro n hn
    have hdiv : n / 256 < 256 ^ k := by
      rw [Nat.div_lt_iff_lt_mul (by norm_num : 0 < 256)]
      calc n < 256 ^ (k + 1) := hn
        _ = 256 ^ k * 256 := pow_succ 256 k
    simp only [encNatLE, List.cons_append, decNatLE]
    rw [show (encNatLE k (n / 256)).append r = encNatLE k (n / 256) ++ r from rfl,
      ih (n / 256) hdiv]
    simp [Nat.mod_add_div]

theorem decNat64_enc (n : Nat) (h : n < 2 ^ 64) (r : List Nat) :
    decNat64 (encNat64 n ++ r) = some (n, r) := by
  have h256 : n < 256 ^ 8 := by
    have : (256 : Nat) ^ 8 = 2 ^ 64 := by norm_num
    omega
  exact decNatLE_enc 8 r n h256

theorem decChar_enc (c : Char) (r : List Nat) :
    decChar (encChar c ++ r) = some (c, r) := by
  have hc : c.toNat < 2 ^ 64 := by
    have h1 : c.toNat < 2 ^ 32 := c.val.toNat_lt
    omega
  unfold decChar encChar
  rw [decNat64_enc c.toNat hc r]
  simp [Char.ofNat_toNat]

theorem decChars_enc (cs : List Char) (r : List Nat) :
    decChars cs.length ((cs.map encChar).flatten ++ r) = some (cs, r) := by
  induction cs with
  | nil => simp [decChars]
  | cons c cs ih =>
    simp only [List.map_cons, List.flatten_cons, List.length_cons, decChars,
      List.append_assoc]
    rw [decChar_enc]
    simp [ih]

theorem decStr_enc (s : String) (h : s.length < 2 ^ 64) (r : List Nat) :
    decStr (encStr s ++ r) = some (s, r) := by
  unfold decStr encStr
  rw [List.append_assoc, decNat64_enc s.length h]
  dsimp only
  rw [show s.length = s.data.length from rfl, decChars_enc s.data r]

theorem decNat64_enc_nil (n : Nat) (h : n < 2 ^ 64) :
    decNat64 (encNat64 n) = some (n, []) := by
  simpa using decNat64_enc n h []

theorem decStr_enc_nil (s : String) (h : s.length < 2 ^ 64) :
    decStr (encStr s) = some (s, []) := by
  simpa using decStr_enc s h []

theorem property_roundtrip (p : Property) (h : p.Valid) :
    Property.fromBytes p.toBytes = some p := by
  obtain ⟨h1, h2, h3, h4, h5, h6⟩ := h
  unfold Property.toBytes Property.fromBytes
  simp only [List.append_assoc]
  rw [decNat64_enc p.id h1]
  simp only [Option.bind_eq_bind, Option.some_bind]
  rw [decStr_enc p.address h4]
  simp only [Option.some_bind]
  rw [decStr_enc p.owner h5]
  simp only [Option.some_bind]
  rw [decNat64_enc p.valuation h2]
  simp only [Option.some_bind]
  rw [decStr_enc p.status h6]
  simp only [Option.some_bind]
  rw [decNat64_enc_nil p.created_at h3]
  simp only [Option.some_bind]
  simp

theorem lease_roundtrip (la : LeaseAgreement) (h : la.Valid) :
    LeaseAgreement.fromBytes la.toBytes = some la := by
  obtain ⟨h1, h2, h3, h4, h5, h6, h7, h8⟩ := h
  unfold LeaseAgreement.toBytes LeaseAgreement.fromBytes
  simp only [List.append_assoc]
  rw [decNat64_enc la.id h1]
  simp only [Option.bind_eq_bind, Option.some_bind]
  rw [decNat64_enc la.property_id h2]
  simp only [Option.some_bind]
  rw [decStr_enc la.tenant h7]
  simp only [Option.some_bind]
  rw [decNat64_enc la.rent h3]
  simp only [Option.some_bind]
  rw [decNat64_enc la.start_date h4]
  simp only [Option.some_bind]
  rw [decNat64_enc la.end_date h5]
  simp only [Option.some_bind]
  rw [decNat64_enc la.created_at h6]
  simp only [Option.some_bind]
  rw [decStr_enc_nil la.digital_signature h8]
  simp only [Option.some_bind]
  simp

theorem maintenance_roundtrip (m : MaintenanceRequest) (h : m.Valid) :
    MaintenanceRequest.fromBytes m.toBytes = some m := by
  obtain ⟨h1, h2, h3, h4, h5, h6⟩ := h
  unfold MaintenanceRequest.toBytes MaintenanceRequest.fromBytes
  simp only [List.append_assoc]
  rw [decNat64_enc m.id h1]
  simp only [Option.bind_eq_bind, Option.some_bind]
  rw [decNat64_enc m.property_id h2]
  simp only [Option.some_bind]
  rw [decStr_enc m.description h4]
  simp only [Option.some_bind]
  rw [decStr_enc m.status h5]
  simp only [Option.some_bind]
  rw [decNat64_enc m.created_at h3]
  simp only [Option.some_bind]
  rw [decStr_enc_nil m.priority h6]
  simp only [Option.some_bind]
  simp

/-! ## Per-operation case analyses -/

theorem isUnauthorizedResult_map {α β : Type} (f : α → β) (r : Except Error α) :
    isUnauthorizedResult (Except.map f r) = isUnauthorizedResult r := by
  cases r with
  | error e => cases e <;> rfl
  | ok a => rfl

theorem map_ok_ne_error {α β : Type} {f : α → β} {r : Except Error α} {v : α}
    {e : Error} (hr : r = Except.ok v) (h : Except.map f r = Except.error e) :
    False := by
  subst hr
  simp [Except.map] at h

theorem create_property_cases (now : Nat) (p : PropertyPayload) (s : State) :
    (create_property now p s).2 = s ∨ ∃ r, (create_property now p s).1 = Except.ok r := by
  unfold create_property
  split
  · left; rfl
  · right; exact ⟨_, rfl⟩

theorem update_property_cases (id : Nat) (p : PropertyPayload) (s : State) :
    (update_property id p s).2 = s ∨ ∃ r, (update_property id p s).1 = Except.ok r := by
  unfold update_property
  split
  · right; exact ⟨_, rfl⟩
  · left; rfl

theorem delete_property_cases (id : Nat) (s : State) :
    (delete_property id s).2 = s ∨ ∃ r, (delete_property id s).1 = Except.ok r := by
  unfold delete_property
  dsimp only
  split
  · right; exact ⟨_, rfl⟩
  · left; rfl

theorem create_lease_cases (now : Nat) (p : LeaseAgreementPayload) (s : State) :
    (create_lease_agreement now p s).2 = s ∨
      ∃ r, (create_lease_agreement now p s).1 = Except.ok r := by
  unfold create_lease_agreement
  split
  · left; rfl
  · split
    · left; rfl
    · split
      · left; rfl
      · right; exact ⟨_, rfl⟩

theorem update_lease_cases (id : Nat) (p : LeaseAgreementPayload) (s : State) :
    (update_lease_agreement id p s).2 = s ∨
      ∃ r, (update_lease_agreement id p s).1 = Except.ok r := by
  unfold update_lease_agreement
  split
  · right; exact ⟨_, rfl⟩
  · left; rfl

theorem delete_lease_cases (id : Nat) (s : State) :
    (delete_lease_agreement id s).2 = s ∨
      ∃ r, (delete_lease_agreement id s).1 = Except.ok r := by
  unfold delete_lease_agreement
  dsimp only
  split
  · right; exact ⟨_, rfl⟩
  · left; rfl

theorem create_maintenance_cases (now : Nat) (p : MaintenanceRequestPayload) (s : State) :
    (create_maintenance_request now p s).2 = s ∨
      ∃ r, (create_maintenance_request now p s).1 = Except.ok r := by
  unfold create_maintenance_request
  split
  · left; rfl
  · split
    · left; rfl
    · right; exact ⟨_, rfl⟩

theorem update_maintenance_cases (id : Nat) (p : MaintenanceRequestPayload) (s : State) :
    (update_maintenance_request id p s).2 = s ∨
      ∃ r, (update_maintenance_request id p s).1 = Except.ok r := by
  unfold update_maintenance_request
  split
  · right; exact ⟨_, rfl⟩
  · left; rfl

theorem delete_maintenance_cases (id : Nat) (s : State) :
    (delete_maintenance_request id s).2 = s ∨
      ∃ r, (delete_maintenance_request id s).1 = Except.ok r := by
  unfold delete_maintenance_request
  dsimp only
  split
  · right; exact ⟨_, rfl⟩
  · left; rfl

/-! ## Claims -/

/-- C2: for every operation of the public interface and every pre-state, if
the operation returns an error then the whole state (id counter and all
three tables) equals the pre-state; no partial mutation is observable. -/
theorem c2_error_leaves_state_unchanged (now : Nat) (op : Op) (s : State) (e : Error)
    (h : (step now op s).1 = Except.error e) : (step now op s).2 = s := by
  cases op with
  | createProperty p =>
    simp only [step] at h ⊢
    rcases create_property_cases now p s with h2 | ⟨r, hr⟩
    · exact h2
    · exact (map_ok_ne_error hr h).elim
  | updateProperty id p =>
    simp only [step] at h ⊢
    rcases update_property_cases id p s with h2 | ⟨r, hr⟩
    · exact h2
    · exact (map_ok_ne_error hr h).elim
  | deleteProperty id =>
    simp only [step] at h ⊢
    rcases delete_property_cases id s with h2 | ⟨r, hr⟩
    · exact h2
    · exact (map_ok_ne_error hr h).elim
  | getAllProperties => rfl
  | createLeaseAgreement p =>
    simp only [step] at h ⊢
    rcases create_lease_cases now p s with h2 | ⟨r, hr⟩
    · exact h2
    · exact (map_ok_ne_error hr h).elim
  | updateLeaseAgreement id p =>
    simp only [step] at h ⊢
    rcases update_lease_cases id p s with h2 | ⟨r, hr⟩
    · exact h2
    · exact (map_ok_ne_error hr h).elim
  | deleteLeaseAgreement id =>
    simp only [step] at h ⊢
    rcases delete_lease_cases id s with h2 | ⟨r, hr⟩
    · exact h2
    · exact (map_ok_ne_error hr h).elim
  | getAllLeaseAgreements => rfl
  | createMaintenanceRequest p =>
    simp only [step] at h ⊢
    rcases create_maintenance_cases now p s with h2 | ⟨r, hr⟩
    · exact h2
    · exact (map_ok_ne_error hr h).elim
  | updateMaintenanceRequest id p =>
    simp only [step] at h ⊢
    rcases update_maintenance_cases id p s with h2 | ⟨r, hr⟩
    · exact h2
    · exact (map_ok_ne_error hr h).elim
  | deleteMaintenanceRequest id =>
    simp only [step] at h ⊢
    rcases delete_maintenance_cases id s with h2 | ⟨r, hr⟩
    · exact h2
    · exact (map_ok_ne_error hr h).elim
  | getAllMaintenanceRequests => rfl

/-- Witness for C2: a create with an empty address fails with
`ValidationError` and leaves the initial state untouched. -/
theorem c2_witness :
    (step 0 (Op.createProperty { address := "", owner := "o", valuation := 0, status := "s" }) initState).2
      = initState :=
  c2_error_leaves_state_unchanged 0 _ initState
    (Error.ValidationError "Address and owner are required") rfl

/-- C9: no entry point, on any state and input, ever returns the
`Unauthorized` error variant. -/
theorem c9_never_unauthorized (now : Nat) (op : Op) (s : State) :
    isUnauthorizedResult (step now op s).1 = false := by
  cases op with
  | createProperty p =>
    simp only [step, isUnauthorizedResult_map]
    unfold create_property
    split <;> rfl
  | updateProperty id p =>
    simp only [step, isUnauthorizedResult_map]
    unfold update_property
    split <;> rfl
  | deleteProperty id =>
    simp only [step, isUnauthorizedResult_map]
    unfold delete_property
    dsimp only
    split <;> rfl
  | getAllProperties =>
    simp only [step, isUnauthorizedResult_map]
    unfold get_all_properties
    dsimp only
    split <;> rfl
  | createLeaseAgreement p =>
    simp only [step, isUnauthorizedResult_map]
    unfold create_lease_agreement
    split
    · rfl
    · split
      · rfl
      · split <;> rfl
  | updateLeaseAgreement id p =>
    simp only [step, isUnauthorizedResult_map]
    unfold update_lease_agreement
    split <;> rfl
  | deleteLeaseAgreement id =>
    simp only [step, isUnauthorizedResult_map]
    unfold delete_lease_agreement
    dsimp only
    split <;> rfl
  | getAllLeaseAgreements =>
    simp only [step, isUnauthorizedResult_map]
    unfold get_all_lease_agreements
    dsimp only
    split <;> rfl
  | createMaintenanceRequest p =>
    simp only [step, isUnauthorizedResult_map]
    unfold create_maintenance_request
    split
    · rfl
    · split <;> rfl
  | updateMaintenanceRequest id p =>
    simp only [step, isUnauthorizedResult_map]
    unfold update_maintenance_request
    split <;> rfl
  | deleteMaintenanceRequest id =>
    simp only [step, isUnauthorizedResult_map]
    unfold delete_maintenance_request
    dsimp only
    split <;> rfl
  | getAllMaintenanceRequests =>
    simp only [step, isUnauthorizedResult_map]
    unfold get_all_maintenance_requests
    dsimp only
    split <;> rfl

/-- C10: the three `get_all` queries are read-only — on every pre-state they
leave the id counter and all three tables exactly unchanged. -/
theorem c10_queries_readonly (now : Nat) (s : State) :
    (step now Op.getAllProperties s).2 = s ∧
    (step now Op.getAllLeaseAgreements s).2 = s ∧
    (step now Op.getAllMaintenanceRequests s).2 = s :=
  ⟨rfl, rfl, rfl⟩

/-- Counterexample to C1 as stated: with an empty Property table (so
`property_id = 0` is absent), a lease payload with an empty tenant and a
maintenance payload with an out-of-range status are rejected with
`ValidationError`, not `NotFound` — the tenant/status checks run before the
property-existence check. -/
theorem c1_counterexample :
    tableGet 0 initState.properties = none ∧
    (create_lease_agreement 0
        { property_id := 0, tenant := "", rent := 0, start_date := 0,
          end_date := 1, digital_signature := "sig" } initState).1
      = Except.error (Error.ValidationError "Tenant name is required") ∧
    (create_maintenance_request 0
        { property_id := 0, description := "leak", status := "open",
          priority := "high" } initState).1
      = Except.error
          (Error.ValidationError "Invalid status. Status must be either pending or completed") := by
  refine ⟨rfl, rfl, ?_⟩
  unfold create_maintenance_request
  rw [if_pos (by decide : ¬("open" : String) = "pending" ∧ ¬("open" : String) = "completed")]

/-- C1 (amended): if the payload passes the checks that precede the property
lookup — a nonempty tenant for a lease, a status in {pending, completed} for
a maintenance request — then an absent `property_id` always yields the
`NotFound` error, with the state unchanged, regardless of the remaining
fields (in particular regardless of `start_date ≥ end_date` for a lease). -/
theorem c1_absent_property_notfound (now : Nat) (s : State)
    (pl : LeaseAgreementPayload) (pm : MaintenanceRequestPayload)
    (hl : pl.tenant.isEmpty = false)
    (hlp : tableGet pl.property_id s.properties = none)
    (hm : pm.status = "pending" ∨ pm.status = "completed")
    (hmp : tableGet pm.property_id s.properties = none) :
    create_lease_agreement now pl s = (Except.error (Error.NotFound "Property not found"), s) ∧
    create_maintenance_request now pm s = (Except.error (Error.NotFound "Property not found"), s) := by
  constructor
  · unfold create_lease_agreement
    simp [hl, containsKey, hlp]
  · unfold create_maintenance_request
    have hv : ¬(pm.status ≠ "pending" ∧ pm.status ≠ "completed") := by tauto
    simp [hv, containsKey, hmp]

/-- Witness for the amended C1: a lease payload with a valid tenant but
reversed dates, and a maintenance payload with status "pending", both naming
the absent property id 3, fail with `NotFound` on the initial state. -/
theorem c1_witness :
    create_lease_agreement 7
        { property_id := 3, tenant := "Bob", rent := 10, start_date := 100,
          end_date := 50, digital_signature := "" } initState
      = (Except.error (Error.NotFound "Property not found"), initState) ∧
    create_maintenance_request 7
        { property_id := 3, description := "d", status := "pending",
          priority := "low" } initState
      = (Except.error (Error.NotFound "Property not found"), initState) :=
  c1_absent_property_notfound 7 initState _ _ rfl rfl (Or.inl rfl) rfl

/-- C3: the id counter starts at 0; every successful create (of any of the
three entity types) returns a record whose id is the pre-state counter and
increments the counter by exactly 1; the invariant that every id stored in
any table is strictly below the counter (hence: a fresh id differs from
every previously allocated id, across all three entity types) holds
initially and is preserved by every operation, and under it the about-to-be
allocated id `s.counter` is absent from all three tables. -/
theorem c3_id_allocation (now : Nat) (s : State) :
    initState.counter = 0
    ∧ (∀ op, Inv s → Inv (step now op s).2)
    ∧ (∀ p r, (create_property now p s).1 = Except.ok r →
        r.id = s.counter ∧ (create_property now p s).2.counter = s.counter + 1)
    ∧ (∀ p r, (create_lease_agreement now p s).1 = Except.ok r →
        r.id = s.counter ∧ (create_lease_agreement now p s).2.counter = s.counter + 1)
    ∧ (∀ p r, (create_maintenance_request now p s).1 = Except.ok r →
        r.id = s.counter ∧ (create_maintenance_request now p s).2.counter = s.counter + 1)
    ∧ (Inv s →
        tableGet s.counter s.properties = none
        ∧ tableGet s.counter s.leases = none
        ∧ tableGet s.counter s.maintenance = none
        ∧ (∀ kv ∈ s.properties, kv.1 < s.counter)
        ∧ (∀ kv ∈ s.leases, kv.1 < s.counter)
        ∧ (∀ kv ∈ s.maintenance, kv.1 < s.counter)) := by
  refine ⟨rfl, fun op h => inv_step now op s h, ?_, ?_, ?_, ?_⟩
  · intro p r h
    by_cases hc : (p.address.isEmpty || p.owner.isEmpty) = true
    · simp [create_property, hc] at h
    · simp only [create_property, hc, Bool.false_eq_true, if_false, allocId,
        Except.ok.injEq] at h ⊢
      subst h
      simp [Property.new]
  · intro p r h
    by_cases hc : p.tenant.isEmpty = true
    · simp [create_lease_agreement, hc] at h
    · by_cases hk : containsKey p.property_id s.properties = true
      · by_cases hd : p.start_date ≥ p.end_date
        · simp [create_lease_agreement, hc, hk, hd] at h
        · simp only [create_lease_agreement, hc, Bool.false_eq_true, if_false, hk,
            Bool.not_true, hd, allocId, Except.ok.injEq] at h ⊢
          subst h
          simp [LeaseAgreement.new]
      · simp [create_lease_agreement, hc, hk] at h
  · intro p r h
    by_cases hc : p.status ≠ "pending" ∧ p.status ≠ "completed"
    · simp [create_maintenance_request, hc] at h
    · by_cases hk : containsKey p.property_id s.properties = true
      · simp only [create_maintenance_request, hc, if_false, hk, Bool.not_true,
          Bool.false_eq_true, allocId, Except.ok.injEq] at h ⊢
        subst h
        simp [MaintenanceRequest.new]
      · simp [create_maintenance_request, hc, hk] at h
  · intro h
    refine ⟨?_, ?_, ?_, h.belowP, h.belowL, h.belowM⟩
    · exact tableGet_eq_none fun x hx => by have := h.belowP x hx; omega
    · exact tableGet_eq_none fun x hx => by have := h.belowL x hx; omega
    · exact tableGet_eq_none fun x hx => by have := h.belowM x hx; omega

/-- Witness for C3: the first create on the initial state increments the
counter from 0 to 1, preserves the invariant, and id 0 was free. -/
theorem c3_witness :
    (create_property 5 { address := "a", owner := "b", valuation := 1, status := "ok" } initState).2.counter
        = initState.counter + 1
    ∧ Inv (step 5 (Op.createProperty { address := "a", owner := "b", valuation := 1, status := "ok" }) initState).2
    ∧ tableGet initState.counter initState.properties = none := by
  refine ⟨?_, ?_, ?_⟩
  · exact ((c3_id_allocation 5 initState).2.2.1
      { address := "a", owner := "b", valuation := 1, status := "ok" }
      (Property.new 0 "a" "b" 1 "ok" 5) rfl).2
  · exact (c3_id_allocation 5 initState).2.1 _ inv_initState
  · exact ((c3_id_allocation 5 initState).2.2.2.2.2 inv_initState).1

/-- C4: each `get_all` query errors with `NotFound` iff its table is empty,
and otherwise returns exactly the stored records, in strictly ascending id
order (hence each record appears once). -/
theorem c4_get_all (s : State) (h : Inv s) :
    ((get_all_properties s = Except.error (Error.NotFound "No properties found."))
        ↔ s.properties = [])
    ∧ (s.properties ≠ [] →
        get_all_properties s = Except.ok (s.properties.map Prod.snd)
        ∧ (s.properties.map Prod.snd).Pairwise (fun a b => a.id < b.id))
    ∧ ((get_all_lease_agreements s = Except.error (Error.NotFound "No lease agreements found."))
        ↔ s.leases = [])
    ∧ (s.leases ≠ [] →
        get_all_lease_agreements s = Except.ok (s.leases.map Prod.snd)
        ∧ (s.leases.map Prod.snd).Pairwise (fun a b => a.id < b.id))
    ∧ ((get_all_maintenance_requests s = Except.error (Error.NotFound "No maintenance requests found."))
        ↔ s.maintenance = [])
    ∧ (s.maintenance ≠ [] →
        get_all_maintenance_requests s = Except.ok (s.maintenance.map Prod.snd)
        ∧ (s.maintenance.map Prod.snd).Pairwise (fun a b => a.id < b.id)) := by
  refine ⟨?_, ?_, ?_, ?_, ?_, ?_⟩
  · by_cases he : s.properties = [] <;> simp [get_all_properties, he]
  · intro hne
    refine ⟨by simp [get_all_properties, hne], ?_⟩
    exact pairwise_snd Property.id h.idP h.sortedP
  · by_cases he : s.leases = [] <;> simp [get_all_lease_agreements, he]
  · intro hne
    refine ⟨by simp [get_all_lease_agreements, hne], ?_⟩
    exact pairwise_snd LeaseAgreement.id h.idL h.sortedL
  · by_cases he : s.maintenance = [] <;> simp [get_all_maintenance_requests, he]
  · intro hne
    refine ⟨by simp [get_all_maintenance_requests, hne], ?_⟩
    exact pairwise_snd MaintenanceRequest.id h.idM h.sortedM

/-- Witness for C4: on the sample state the property query returns the two
stored records in id order and the lease query returns the stored lease;
emptying the maintenance table is not needed — the iff is also witnessed on
the initial state through the C4 theorem at `initState`. -/
theorem c4_witness :
    get_all_properties sampleState = Except.ok [sampleProperty, sampleProperty2]
    ∧ (get_all_lease_agreements initState = Except.error (Error.NotFound "No lease agreements found.")) := by
  constructor
  · exact ((c4_get_all sampleState (by constructor <;> decide)).2.1 (by decide)).1
  · exact (c4_get_all initState inv_initState).2.2.1.mpr rfl

/-- C5: for each entity type, `update(id, payload)` returns `NotFound` and
leaves the state unchanged when id is absent; when id is present the stored
record keeps its `id` and `created_at`, every other field is replaced by the
payload, the returned record is the newly stored one, every other key of
that table is untouched, and the other two tables and the counter are
unchanged. -/
theorem c5_update (s : State) (id : Nat) (pp : PropertyPayload)
    (pl : LeaseAgreementPayload) (pm : MaintenanceRequestPayload) :
    ((tableGet id s.properties = none →
        update_property id pp s = (Except.error (Error.NotFound "Property not found"), s))
      ∧ (∀ r, tableGet id s.properties = some r →
          (update_property id pp s).1 = Except.ok
            { id := r.id, address := pp.address, owner := pp.owner,
              valuation := pp.valuation, status := pp.status, created_at := r.created_at }
          ∧ tableGet id (update_property id pp s).2.properties = some
            { id := r.id, address := pp.address, owner := pp.owner,
              valuation := pp.valuation, status := pp.status, created_at := r.created_at }
          ∧ (∀ k, k ≠ id → tableGet k (update_property id pp s).2.properties = tableGet k s.properties)
          ∧ (update_property id pp s).2.leases = s.leases
          ∧ (update_property id pp s).2.maintenance = s.maintenance
          ∧ (update_property id pp s).2.counter = s.counter))
    ∧ ((tableGet id s.leases = none →
        update_lease_agreement id pl s = (Except.error (Error.NotFound "Lease agreement not found"), s))
      ∧ (∀ r, tableGet id s.leases = some r →
          (update_lease_agreement id pl s).1 = Except.ok
            { id := r.id, property_id := pl.property_id, tenant := pl.tenant,
              rent := pl.rent, start_date := pl.start_date, end_date := pl.end_date,
              created_at := r.created_at, digital_signature := pl.digital_signature }
          ∧ tableGet id (update_lease_agreement id pl s).2.leases = some
            { id := r.id, property_id := pl.property_id, tenant := pl.tenant,
              rent := pl.rent, start_date := pl.start_date, end_date := pl.end_date,
              created_at := r.created_at, digital_signature := pl.digital_signature }
          ∧ (∀ k, k ≠ id → tableGet k (update_lease_agreement id pl s).2.leases = tableGet k s.leases)
          ∧ (update_lease_agreement id pl s).2.properties = s.properties
          ∧ (update_lease_agreement id pl s).2.maintenance = s.maintenance
          ∧ (update_lease_agreement id pl s).2.counter = s.counter))
    ∧ ((tableGet id s.maintenance = none →
        update_maintenance_request id pm s = (Except.error (Error.NotFound "Maintenance request not found"), s))
      ∧ (∀ r, tableGet id s.maintenance = some r →
          (update_maintenance_request id pm s).1 = Except.ok
            { id := r.id, property_id := pm.property_id, description := pm.description,
              status := pm.status, created_at := r.created_at, priority := pm.priority }
          ∧ tableGet id (update_maintenance_request id pm s).2.maintenance = some
            { id := r.id, property_id := pm.property_id, description := pm.description,
              status := pm.status, created_at := r.created_at, priority := pm.priority }
          ∧ (∀ k, k ≠ id → tableGet k (update_maintenance_request id pm s).2.maintenance = tableGet k s.maintenance)
          ∧ (update_maintenance_request id pm s).2.properties = s.properties
          ∧ (update_maintenance_request id pm s).2.leases = s.leases
          ∧ (update_maintenance_request id pm s).2.counter = s.counter)) := by
  refine ⟨⟨?_, ?_⟩, ⟨?_, ?_⟩, ⟨?_, ?_⟩⟩
  · intro h
    simp [update_property, h]
  · intro r hr
    refine ⟨?_, ?_, ?_, ?_, ?_, ?_⟩
    · simp [update_property, hr]
    · simp only [update_property, hr]
      exact tableGet_insert_self _ _ _
    · intro k hk
      simp only [update_property, hr]
      exact tableGet_insert_ne _ _ hk
    · simp [update_property, hr]
    · simp [update_property, hr]
    · simp [update_property, hr]
  · intro h
    simp [update_lease_agreement, h]
  · intro r hr
    refine ⟨?_, ?_, ?_, ?_, ?_, ?_⟩
    · simp [update_lease_agreement, hr]
    · simp only [update_lease_agreement, hr]
      exact tableGet_insert_self _ _ _
    · intro k hk
      simp only [update_lease_agreement, hr]
      exact tableGet_insert_ne _ _ hk
    · simp [update_lease_agreement, hr]
    · simp [update_lease_agreement, hr]
    · simp [update_lease_agreement, hr]
  · intro h
    simp [update_maintenance_request, h]
  · intro r hr
    refine ⟨?_, ?_, ?_, ?_, ?_, ?_⟩
    · simp [update_maintenance_request, hr]
    · simp only [update_maintenance_request, hr]
      exact tableGet_insert_self _ _ _
    · intro k hk
      simp only [update_maintenance_request, hr]
      exact tableGet_insert_ne _ _ hk
    · simp [update_maintenance_request, hr]
    · simp [update_maintenance_request, hr]
    · simp [update_maintenance_request, hr]

/-- Witness for C5: updating property 0 of the sample state replaces the
mutable fields and keeps id 0 and the original `created_at` 10; and updating
the absent id 99 fails with `NotFound` leaving the sample state unchanged. -/
theorem c5_witness :
    (update_property 0 { address := "9 New Rd", owner := "Dan", valuation := 9, status := "x" } sampleState).1
      = Except.ok { id := 0, address := "9 New Rd", owner := "Dan", valuation := 9,
                    status := "x", created_at := 10 }
    ∧ update_property 99 { address := "9 New Rd", owner := "Dan", valuation := 9, status := "x" } sampleState
      = (Except.error (Error.NotFound "Property not found"), sampleState) := by
  constructor
  · exact ((c5_update sampleState 0
      { address := "9 New Rd", owner := "Dan", valuation := 9, status := "x" }
      { property_id := 0, tenant := "t", rent := 0, start_date := 0, end_date := 1, digital_signature := "" }
      { property_id := 0, description := "d", status := "pending", priority := "p" }).1.2
      sampleProperty rfl).1
  · exact (c5_update sampleState 99
      { address := "9 New Rd", owner := "Dan", valuation := 9, status := "x" }
      { property_id := 0, tenant := "t", rent := 0, start_date := 0, end_date := 1, digital_signature := "" }
      { property_id := 0, description := "d", status := "pending", priority := "p" }).1.1 rfl

/-- C6: for every entity type and every id present in its table, update
succeeds for every payload whatsoever — no create-time validation rule is
re-applied. -/
theorem c6_update_no_validation (s : State) (id : Nat) (pp : PropertyPayload)
    (pl : LeaseAgreementPayload) (pm : MaintenanceRequestPayload) :
    (containsKey id s.properties = true →
      ∃ r, (update_property id pp s).1 = Except.ok r)
    ∧ (containsKey id s.leases = true →
      ∃ r, (update_lease_agreement id pl s).1 = Except.ok r)
    ∧ (containsKey id s.maintenance = true →
      ∃ r, (update_maintenance_request id pm s).1 = Except.ok r) := by
  refine ⟨?_, ?_, ?_⟩
  · intro h
    obtain ⟨r, hr⟩ := Option.isSome_iff_exists.mp h
    refine ⟨{ r with address := pp.address, owner := pp.owner, valuation := pp.valuation, status := pp.status }, ?_⟩
    simp [update_property, hr]
  · intro h
    obtain ⟨r, hr⟩ := Option.isSome_iff_exists.mp h
    refine ⟨{ r with property_id := pl.property_id, tenant := pl.tenant, rent := pl.rent, start_date := pl.start_date, end_date := pl.end_date, digital_signature := pl.digital_signature }, ?_⟩
    simp [update_lease_agreement, hr]
  · intro h
    obtain ⟨r, hr⟩ := Option.isSome_iff_exists.mp h
    refine ⟨{ r with property_id := pm.property_id, description := pm.description, status := pm.status, priority := pm.priority }, ?_⟩
    simp [update_maintenance_request, hr]

/-- Witness for C6: on the sample state, update accepts a property payload
with empty address and owner, a lease payload with `start_date > end_date`
and a dangling `property_id`, and a maintenance payload with a status
outside the admissible set. -/
theorem c6_witness :
    (∃ r, (update_property 0
        { address := "", owner := "", valuation := 0, status := "" } sampleState).1
      = Except.ok r)
    ∧ (∃ r, (update_lease_agreement 2
        { property_id := 999, tenant := "", rent := 0, start_date := 100,
          end_date := 50, digital_signature := "" } sampleState).1
      = Except.ok r)
    ∧ (∃ r, (update_maintenance_request 3
        { property_id := 999, description := "", status := "bogus",
          priority := "" } sampleState).1
      = Except.ok r) := by
  have h := c6_update_no_validation sampleState 0
    { address := "", owner := "", valuation := 0, status := "" }
    { property_id := 999, tenant := "", rent := 0, start_date := 100,
      end_date := 50, digital_signature := "" }
    { property_id := 999, description := "", status := "bogus", priority := "" }
  refine ⟨h.1 (by decide), ?_, ?_⟩
  · exact (c6_update_no_validation sampleState 2
      { address := "", owner := "", valuation := 0, status := "" }
      { property_id := 999, tenant := "", rent := 0, start_date := 100,
        end_date := 50, digital_signature := "" }
      { property_id := 999, description := "", status := "bogus", priority := "" }).2.1
      (by decide)
  · exact (c6_update_no_validation sampleState 3
      { address := "", owner := "", valuation := 0, status := "" }
      { property_id := 999, tenant := "", rent := 0, start_date := 100,
        end_date := 50, digital_signature := "" }
      { property_id := 999, description := "", status := "bogus", priority := "" }).2.2
      (by decide)

/-- C7: for each entity type, delete errors with `NotFound` exactly when the
id is absent (leaving the state unchanged); on success the record is removed
(a second delete of the same id errors, the record is gone from its table
and from `get_all`), while everything else — the other keys of that table,
the other two tables, and the counter — is untouched.  In particular,
deleting a property leaves leases and maintenance requests referencing it in
place. -/
theorem c7_delete (s : State) (id : Nat) (h : Inv s) :
    ((tableGet id s.properties = none →
        delete_property id s = (Except.error (Error.NotFound "Property not found"), s))
      ∧ (∀ r, tableGet id s.properties = some r →
          (delete_property id s).1 = Except.ok ()
          ∧ tableGet id (delete_property id s).2.properties = none
          ∧ (∀ k, k ≠ id → tableGet k (delete_property id s).2.properties = tableGet k s.properties)
          ∧ (delete_property id (delete_property id s).2).1
              = Except.error (Error.NotFound "Property not found")
          ∧ (∀ res, get_all_properties (delete_property id s).2 = Except.ok res →
              ∀ x ∈ res, x.id ≠ id)
          ∧ (delete_property id s).2.leases = s.leases
          ∧ (delete_property id s).2.maintenance = s.maintenance
          ∧ (delete_property id s).2.counter = s.counter))
    ∧ ((tableGet id s.leases = none →
        delete_lease_agreement id s = (Except.error (Error.NotFound "Lease agreement not found"), s))
      ∧ (∀ r, tableGet id s.leases = some r →
          (delete_lease_agreement id s).1 = Except.ok ()
          ∧ tableGet id (delete_lease_agreement id s).2.leases = none
          ∧ (∀ k, k ≠ id → tableGet k (delete_lease_agreement id s).2.leases = tableGet k s.leases)
          ∧ (delete_lease_agreement id (delete_lease_agreement id s).2).1
              = Except.error (Error.NotFound "Lease agreement not found")
          ∧ (delete_lease_agreement id s).2.properties = s.properties
          ∧ (delete_lease_agreement id s).2.maintenance = s.maintenance
          ∧ (delete_lease_agreement id s).2.counter = s.counter))
    ∧ ((tableGet id s.maintenance = none →
        delete_maintenance_request id s = (Except.error (Error.NotFound "Maintenance request not found"), s))
      ∧ (∀ r, tableGet id s.maintenance = some r →
          (delete_maintenance_request id s).1 = Except.ok ()
          ∧ tableGet id (delete_maintenance_request id s).2.maintenance = none
          ∧ (∀ k, k ≠ id → tableGet k (delete_maintenance_request id s).2.maintenance = tableGet k s.maintenance)
          ∧ (delete_maintenance_request id (delete_maintenance_request id s).2).1
              = Except.error (Error.NotFound "Maintenance request not found")
          ∧ (delete_maintenance_request id s).2.properties = s.properties
          ∧ (delete_maintenance_request id s).2.leases = s.leases
          ∧ (delete_maintenance_request id s).2.counter = s.counter)) := by
  refine ⟨⟨?_, ?_⟩, ⟨?_, ?_⟩, ⟨?_, ?_⟩⟩
  · intro hn
    simp [delete_property, tableRemove_fst, hn]
  · intro r hr
    have hsome : (tableRemove id s.properties).1.isSome = true := by
      rw [tableRemove_fst, hr]; rfl
    have hget : tableGet id (tableRemove id s.properties).2 = none :=
      tableGet_remove_self h.sortedP
    refine ⟨?_, ?_, ?_, ?_, ?_, ?_, ?_, ?_⟩
    · simp [delete_property, hsome]
    · simp only [delete_property, hsome, if_true]
      exact hget
    · intro k hk
      simp only [delete_property, hsome, if_true]
      exact tableGet_remove_ne _ hk
    · simp only [delete_property, hsome, if_true]
      simp [delete_property, tableRemove_fst, hget]
    · intro res hres x hx
      simp only [delete_property, hsome, if_true] at hres
      unfold get_all_properties at hres
      by_cases he : ((tableRemove id s.properties).2.map Prod.snd).isEmpty = true
      · simp [he] at hres
      · simp only [he, Bool.false_eq_true, if_false, Except.ok.injEq] at hres
        subst hres
        obtain ⟨kv, hkv, rfl⟩ := List.mem_map.mp hx
        rw [h.idP kv (mem_tableRemove hkv)]
        exact tableGet_none_forall hget kv hkv
    · simp [delete_property, hsome]
    · simp [delete_property, hsome]
    · simp [delete_property, hsome]
  · intro hn
    simp [delete_lease_agreement, tableRemove_fst, hn]
  · intro r hr
    have hsome : (tableRemove id s.leases).1.isSome = true := by
      rw [tableRemove_fst, hr]; rfl
    have hget : tableGet id (tableRemove id s.leases).2 = none :=
      tableGet_remove_self h.sortedL
    refine ⟨?_, ?_, ?_, ?_, ?_, ?_, ?_⟩
    · simp [delete_lease_agreement, hsome]
    · simp only [delete_lease_agreement, hsome, if_true]
      exact hget
    · intro k hk
      simp only [delete_lease_agreement, hsome, if_true]
      exact tableGet_remove_ne _ hk
    · simp only [delete_lease_agreement, hsome, if_true]
      simp [delete_lease_agreement, tableRemove_fst, hget]
    · simp [delete_lease_agreement, hsome]
    · simp [delete_lease_agreement, hsome]
    · simp [delete_lease_agreement, hsome]
  · intro hn
    simp [delete_maintenance_request, tableRemove_fst, hn]
  · intro r hr
    have hsome : (tableRemove id s.maintenance).1.isSome = true := by
      rw [tableRemove_fst, hr]; rfl
    have hget : tableGet id (tableRemove id s.maintenance).2 = none :=
      tableGet_remove_self h.sortedM
    refine ⟨?_, ?_, ?_, ?_, ?_, ?_, ?_⟩
    · simp [delete_maintenance_request, hsome]
    · simp only [delete_maintenance_request, hsome, if_true]
      exact hget
    · intro k hk
      simp only [delete_maintenance_request, hsome, if_true]
      exact tableGet_remove_ne _ hk
    · simp only [delete_maintenance_request, hsome, if_true]
      simp [delete_maintenance_request, tableRemove_fst, hget]
    · simp [delete_maintenance_request, hsome]
    · simp [delete_maintenance_request, hsome]
    · simp [delete_maintenance_request, hsome]

/-- Witness for C7: deleting property 1 from the sample state succeeds,
removes exactly id 1, and leaves the lease referencing property 0 in place;
deleting the absent id 99 fails with `NotFound`. -/
theorem c7_witness :
    (delete_property 1 sampleState).1 = Except.ok ()
    ∧ tableGet 1 (delete_property 1 sampleState).2.properties = none
    ∧ (delete_property 1 sampleState).2.leases = sampleState.leases
    ∧ delete_property 99 sampleState
      = (Except.error (Error.NotFound "Property not found"), sampleState) := by
  have h := (c7_delete sampleState 1 (by constructor <;> decide)).1.2 sampleProperty2 rfl
  refine ⟨h.1, h.2.1, h.2.2.2.2.2.1, ?_⟩
  exact (c7_delete sampleState 99 (by constructor <;> decide)).1.1 rfl

/-- C8: for every valid record of each of the three entity types, decoding
the encoding yields the record back: `from_bytes(to_bytes(r)) == r`. -/
theorem c8_storable_roundtrip (p : Property) (la : LeaseAgreement)
    (m : MaintenanceRequest) (hp : p.Valid) (hl : la.Valid) (hm : m.Valid) :
    Property.fromBytes p.toBytes = some p
    ∧ LeaseAgreement.fromBytes la.toBytes = some la
    ∧ MaintenanceRequest.fromBytes m.toBytes = some m :=
  ⟨property_roundtrip p hp, lease_roundtrip la hl,
    maintenance_roundtrip m hm⟩

/-- Witness for C8: the three sample records all round-trip. -/
theorem c8_witness :
    Property.fromBytes sampleProperty.toBytes = some sampleProperty
    ∧ LeaseAgreement.fromBytes sampleLease.toBytes = some sampleLease
    ∧ MaintenanceRequest.fromBytes sampleMaintenance.toBytes = some sampleMaintenance :=
  c8_storable_roundtrip sampleProperty sampleLease sampleMaintenance
    (by refine ⟨?_, ?_, ?_, ?_, ?_, ?_⟩ <;> decide)
    (by refine ⟨?_, ?_, ?_, ?_, ?_, ?_, ?_, ?_⟩ <;> decide)
    (by refine ⟨?_, ?_, ?_, ?_, ?_, ?_⟩ <;> decide)

end RealEstate
